import Mathlib

/-!
Verification of the Plank dual-protocol server lifecycle and routing coordinator
(repository vogtp/transport-go, directory plank/).

The Go source under plank/pkg/server/core_models.go declares the data model
(PlatformServerConfig, TLSCertConfig, FabricBrokerConfig, the PlatformServer
interface, the platformServer struct, transportChannelResponse and
serverAvailability); plank/pkg/server/prometheus.go implements the metrics
route registration; plank/utils/cli.go carries the CLI flag constants.  The
lifecycle, guard and bridge method bodies are not part of the provided source,
so those operations are modelled from the specification, faithful to its
words; each such definition is marked "Modelled from the spec".
-/

namespace Plank

/-- Error taxonomy of the server, from the specification's error handling
design: ConfigError, TLSError, ConnectError, BindError, DuplicateRoute,
DuplicateChannel, RouteNotFound, Busy, BridgeTimeout, ShutdownTimeoutExceeded. -/
inductive PlankError where
  | configError
  | tlsError
  | connectError
  | bindError
  | duplicateRoute (method uri : String)
  | duplicateChannel (channel : String)
  | routeNotFound (uri method : String)
  | busy
  | bridgeTimeout
  | shutdownTimeoutExceeded
deriving DecidableEq, Repr

/-- An HTTP method + URI pair, the key under which a REST-bridge endpoint is
registered on the router. -/
structure EndpointKey where
  method : String
  uri : String
deriving DecidableEq, Repr

/-- Descriptor of an HTTP handler value held in the platformServer's
endpointHandlerMap (core_models.go, field endpointHandlerMap
map[string]http.HandlerFunc).  A bridge handler forwards the request body to
the bus channel it was bridged from. -/
inductive HttpHandlerFn where
  | bridgeHandler (channel : String) (key : EndpointKey)
deriving DecidableEq, Repr

/-- The routing and registration state owned by one platformServer
(core_models.go): the router's registered routes, the
endpointHandlerMap (endpoint key to handler), the
serviceChanToBridgeEndpoints map (bus channel to list of endpoint keys),
and the set of bus channels claimed by RegisterService. -/
structure BridgeState where
  routes : List EndpointKey
  endpointHandlerMap : List (EndpointKey × HttpHandlerFn)
  serviceChanToBridgeEndpoints : List (String × List EndpointKey)
  registeredChannels : List String
deriving DecidableEq, Repr

/-- The empty registration state of a freshly constructed platformServer. -/
def BridgeState.empty : BridgeState :=
  { routes := [], endpointHandlerMap := [],
    serviceChanToBridgeEndpoints := [], registeredChannels := [] }

/-- Scans the requested endpoint pairs in order against the routes already
claimed, also counting earlier pairs of the same call, and returns the first
pair that is already taken, if any. -/
def findDuplicatePair : List EndpointKey → List EndpointKey → Option EndpointKey
  | _, [] => none
  | claimed, k :: rest =>
      if k ∈ claimed then some k else findDuplicatePair (k :: claimed) rest

/-- Appends endpoint keys to the channel's entry of the
serviceChanToBridgeEndpoints map, creating the entry when absent. -/
def appendChannelEndpoints (m : List (String × List EndpointKey))
    (channel : String) (ks : List EndpointKey) : List (String × List EndpointKey) :=
  match m with
  | [] => [(channel, ks)]
  | (c, es) :: rest =>
      if c = channel then (c, es ++ ks) :: rest
      else (c, es) :: appendChannelEndpoints rest channel ks

/-- Modelled from the spec: SetHttpChannelBridge (the Service-to-Route
Bridge, spec 4.2; method body absent from the provided source).  For each
requested (HTTP method, URI) pair the bridge verifies no existing route
already claims that pair; if one does, the call fails with DuplicateRoute
and registers none of the pairs (all-or-nothing).  On success it registers a
bridge handler route for every pair, records each endpoint key's handler in
endpointHandlerMap, and appends the endpoint keys to the channel's entry of
serviceChanToBridgeEndpoints.  On failure the state is returned unchanged
next to the error. -/
def SetHttpChannelBridge (s : BridgeState) (channel : String)
    (pairs : List EndpointKey) : BridgeState × Option PlankError :=
  match findDuplicatePair s.routes pairs with
  | some k => (s, some (.duplicateRoute k.method k.uri))
  | none =>
      ({ s with
          routes := s.routes ++ pairs,
          endpointHandlerMap :=
            s.endpointHandlerMap ++ pairs.map (fun k => (k, .bridgeHandler channel k)),
          serviceChanToBridgeEndpoints :=
            appendChannelEndpoints s.serviceChanToBridgeEndpoints channel pairs },
        none)

/-- Modelled from the spec: RegisterService (spec 4.4; method body absent
from the provided source) fails with DuplicateChannel if the same bus channel
is registered twice, leaving the state unchanged; otherwise it records the
channel. -/
def RegisterService (s : BridgeState) (svcChannel : String) :
    BridgeState × Option PlankError :=
  if svcChannel ∈ s.registeredChannels then
    (s, some (.duplicateChannel svcChannel))
  else
    ({ s with registeredChannels := s.registeredChannels ++ [svcChannel] }, none)

/-- Modelled from the spec: GetRestBridgeSubRoute (spec 4.2, 6; method body
absent from the provided source) looks a route up by (URI, method) and fails
with RouteNotFound if absent. -/
def GetRestBridgeSubRoute (s : BridgeState) (uri method : String) :
    Except PlankError EndpointKey :=
  if (⟨method, uri⟩ : EndpointKey) ∈ s.routes then
    .ok ⟨method, uri⟩
  else
    .error (.routeNotFound uri method)

/-! ## Route Table Guard (spec 4.1)

The platformServer field routerConcurrencyProtection (core_models.go line 70)
is an atomic int32 protecting the router against concurrent writes; the spec
describes it as a two-state compare-and-set flag (Free = 0, Mutating = 1)
whose acquisition fails fast with Busy. -/

/-- Semantics of Go's atomic.CompareAndSwapInt32 on a value: if the current
value equals old, swap to new and report success, else leave it and report
failure.  The atomic, all-threads-visible nature of the hardware operation is
reflected by treating each application as one indivisible step of the trace
semantics below. -/
def compareAndSwapInt32 (current old new : Int) : Bool × Int :=
  if current = old then (true, new) else (false, current)

/-- Modelled from the spec: beginRouteMutation (spec 4.1; the guard's method
bodies are absent from the provided source).  Compare-and-set the
routerConcurrencyProtection flag from Free (0) to Mutating (1); a failed swap
means another mutation is in flight and yields the Busy error instead of
blocking. -/
def beginRouteMutation (flag : Int) : Except PlankError Int :=
  let r := compareAndSwapInt32 flag 0 1
  if r.1 then .ok r.2 else .error .busy

/-- Modelled from the spec: endRouteMutation (spec 4.1) stores Free (0) back
into the routerConcurrencyProtection flag. -/
def endRouteMutation (_flag : Int) : Int := 0

/-- One linearized atomic event on the guard while the HTTP listener is
live: a task attempts to begin a route mutation, or the task holding the
guard ends its mutation. -/
inductive GuardEvent where
  | beginAttempt (tid : Nat)
  | endMutation (tid : Nat)
deriving DecidableEq, Repr

/-- Guard trace state: the current flag value together with the list of task
ids currently holding the guard (inside a route mutation). -/
structure GuardState where
  flag : Int
  holders : List Nat
deriving DecidableEq, Repr

/-- Initial guard state: the flag is Free and no mutation is in flight. -/
def GuardState.init : GuardState := { flag := 0, holders := [] }

/-- One atomic step of the guard trace semantics: a begin attempt runs
beginRouteMutation and the task becomes a holder only when the compare-and-set
succeeds; an end by a current holder runs endRouteMutation and releases it
(an end by a non-holder is a no-op). -/
def guardStep (s : GuardState) (e : GuardEvent) : GuardState :=
  match e with
  | .beginAttempt t =>
      match beginRouteMutation s.flag with
      | .ok f => { flag := f, holders := t :: s.holders }
      | .error _ => s
  | .endMutation t =>
      if t ∈ s.holders then
        { flag := endRouteMutation s.flag, holders := s.holders.erase t }
      else s

/-- The guard state reached after a linearization of concurrent guard events,
starting from the initial Free state. -/
def guardRun (events : List GuardEvent) : GuardState :=
  events.foldl guardStep GuardState.init

/-- The guard trace invariant: the flag is Free with no holder, or Mutating
with exactly one holder. -/
def GuardInv (s : GuardState) : Prop :=
  (s.flag = 0 ∧ s.holders = []) ∨ (s.flag = 1 ∧ ∃ t, s.holders = [t])

/-! ## Lifecycle Coordinator: shutdown (spec 4.4) -/

/-- Observable actions of the shutdown sequence, plus a process-exit action
used to express that a condition is non-fatal. -/
inductive ShutdownAction where
  | setHttpAvailability (b : Bool)
  | setFabricAvailability (b : Bool)
  | drainHttpListener
  | forceCloseConnections
  | reportShutdownTimeoutExceeded
  | closeBrokerAcceptor
  | exitProcessWithError
deriving DecidableEq, Repr

/-- Modelled from the spec: the shutdown sequence of the Lifecycle
Coordinator (spec 4.4; StopServer's body is absent from the provided
source).  On signal or explicit stop, mark both availability flags false
immediately, then drive the bounded graceful drain of the HTTP listener up to
ShutdownTimeout; if the drain exceeds the budget (drainTime greater than the
timeout), force-close the remaining connections and report
ShutdownTimeoutExceeded without aborting; close the broker acceptor last.
drainTime is the time the drain would need for all in-flight requests to
complete; shutdownTimeout is the configured budget. -/
def stopServerTrace (drainTime shutdownTimeout : Nat) : List ShutdownAction :=
  [.setHttpAvailability false, .setFabricAvailability false, .drainHttpListener] ++
    (if drainTime ≤ shutdownTimeout then []
     else [.forceCloseConnections, .reportShutdownTimeoutExceeded]) ++
    [.closeBrokerAcceptor]

/-- Time actually spent draining the HTTP listener: the drain completes when
all in-flight requests do, but is cut off at the ShutdownTimeout budget. -/
def httpDrainDuration (drainTime shutdownTimeout : Nat) : Nat :=
  min drainTime shutdownTimeout

/-! ## REST-bridge request timeout (spec 4.2, 5)

PlatformServerConfig.RestBridgeTimeoutInMinutes (core_models.go line 35)
bounds the wait for a bus reply; transportChannelResponse (core_models.go)
carries the asynchronous reply back to the handler. -/

/-- Classification of the HTTP response written by a bridge handler. -/
inductive ResponseKind where
  | success
  | gatewayTimeout
deriving DecidableEq, Repr

/-- Outcome of one bridged request: the response kind, the time at which the
response was written (relative to request arrival), and the number of live
bus subscriptions held by the bridge afterwards. -/
structure BridgeRequestOutcome where
  response : ResponseKind
  responseTime : Nat
  subscriptionsAfter : Nat
deriving DecidableEq, Repr

/-- Modelled from the spec: the bridge handler's response wait (spec 4.2;
the handler body is absent from the provided source).  The handler opens a
bus subscription, forwards the request, and awaits the channel's
transportChannelResponse; busReplyAt is the arrival time of the bus reply
(none when the channel never answers).  If the reply arrives within
requestTimeout the response is written from it and the subscription is
released; otherwise the wait is cancelled at requestTimeout, a
gateway-timeout-class response is written, and the pending subscription is
released all the same. -/
def handleBridgeRequest (requestTimeout : Nat) (busReplyAt : Option Nat)
    (subsBefore : Nat) : BridgeRequestOutcome :=
  match busReplyAt with
  | some t =>
      if t ≤ requestTimeout then
        { response := .success, responseTime := t, subscriptionsAfter := subsBefore }
      else
        { response := .gatewayTimeout, responseTime := requestTimeout,
          subscriptionsAfter := subsBefore }
  | none =>
      { response := .gatewayTimeout, responseTime := requestTimeout,
        subscriptionsAfter := subsBefore }

/-- Live-subscription count after a sequence of bridged requests, each
described by the arrival time of its bus reply. -/
def runBridgeRequests (requestTimeout : Nat) (replies : List (Option Nat))
    (subs : Nat) : Nat :=
  match replies with
  | [] => subs
  | r :: rest =>
      runBridgeRequests requestTimeout rest
        (handleBridgeRequest requestTimeout r subs).subscriptionsAfter

/-! ## Configuration model and startup validation (core_models.go, spec 4.4) -/

/-- TLSCertConfig (core_models.go lines 39-43): certificate file path,
private key file path, and the skip-validation flag. -/
structure TLSCertConfig where
  CertFile : String
  KeyFile : String
  SkipCertificateValidation : Bool
deriving DecidableEq, Repr

/-- FabricBrokerConfig (core_models.go): the WebSocket endpoint URI for the
STOMP broker.  The nested bus.EndpointConfig is opaque to this core and kept
abstract as a presence flag. -/
structure FabricBrokerConfig where
  FabricEndpoint : String
  EndpointConfigPresent : Bool
deriving DecidableEq, Repr

/-- SpaConfig referenced by PlatformServerConfig (core_models.go line 25):
the SPA root folder path as given on the command line or config file. -/
structure SpaConfig where
  RootFolder : String
deriving DecidableEq, Repr

/-- PlatformServerConfig (core_models.go lines 22-36).  Pointer-typed fields
(SpaConfig, LogConfig, FabricConfig, TLSCertConfig) become Option; LogConfig
is opaque to this core and kept as a presence flag; the two Duration fields
are naturals (minutes). -/
structure PlatformServerConfig where
  RootDir : String
  StaticDir : List String
  SpaConfig : Option SpaConfig
  Host : String
  Port : Int
  LogConfigPresent : Bool
  FabricConfig : Option FabricBrokerConfig
  TLSCertConfig : Option TLSCertConfig
  EnablePrometheus : Bool
  Debug : Bool
  NoBanner : Bool
  ShutdownTimeoutInMinutes : Nat
  RestBridgeTimeoutInMinutes : Nat
deriving DecidableEq, Repr

/-- A valid TCP port number: positive and at most 65535. -/
def isValidTcpPort (p : Int) : Bool :=
  0 < p && p ≤ 65535

/-- Modelled from the spec: startup configuration validation (spec 4.4 step
1 and the spec 3 invariant; the validation body is absent from the provided
source).  The port must be a valid TCP port and, if a TLS configuration is
present, both the certificate file and the key file must be present;
otherwise the configuration is rejected with a fatal ConfigError. -/
def validateConfig (c : PlatformServerConfig) : Option PlankError :=
  if ¬ isValidTcpPort c.Port then some .configError
  else
    match c.TLSCertConfig with
    | some t =>
        if t.CertFile = "" ∨ t.KeyFile = "" then some .configError else none
    | none => none

/-- Observable actions of the startup sequence (spec 4.4). -/
inductive StartupAction where
  | validateConfiguration
  | buildRouter
  | loadTLSCertificate
  | connectBrokerAcceptor
  | startHttpListener
  | fatalExit (e : PlankError)
deriving DecidableEq, Repr

/-- Whether startup aborts at the TLS-loading step: TLS is configured and
loading the certificate or key fails. -/
def startupTlsFatal (c : PlatformServerConfig) (tlsLoadOk : Bool) : Bool :=
  c.TLSCertConfig.isSome && !tlsLoadOk

/-- Modelled from the spec: the startup sequence of the Lifecycle
Coordinator (spec 4.4; StartServer's body is absent from the provided
source).  Configuration validation runs first and a ConfigError is fatal
before anything else happens; if TLS is configured its certificate and key
are loaded (tlsLoadOk tells whether loading succeeds) and a load failure is
a fatal TLSError before any listener starts; the broker acceptor connects if
a fabric configuration is present; the HTTP listener starts last. -/
def startServerTrace (c : PlatformServerConfig) (tlsLoadOk : Bool) :
    List StartupAction :=
  match validateConfig c with
  | some e => [.validateConfiguration, .fatalExit e]
  | none =>
      [.validateConfiguration, .buildRouter] ++
        (match c.TLSCertConfig with
         | some _ =>
             if tlsLoadOk then [.loadTLSCertificate]
             else [.loadTLSCertificate, .fatalExit .tlsError]
         | none => []) ++
        (if startupTlsFatal c tlsLoadOk then []
         else
           (match c.FabricConfig with
            | some _ => [.connectBrokerAcceptor]
            | none => []) ++ [.startHttpListener])

/-- A sample configuration passing validation: a usable port and a TLS
configuration carrying both a certificate file and a key file. -/
def sampleConfigValid : PlatformServerConfig :=
  { RootDir := ".", StaticDir := ["public"], SpaConfig := none,
    Host := "localhost", Port := 8080, LogConfigPresent := false,
    FabricConfig := some ⟨"/ws", true⟩,
    TLSCertConfig := some ⟨"cert.pem", "key.pem", false⟩,
    EnablePrometheus := false, Debug := false, NoBanner := false,
    ShutdownTimeoutInMinutes := 1, RestBridgeTimeoutInMinutes := 1 }

/-- A sample configuration violating the invariant: TLS is configured but
the key file is missing. -/
def sampleConfigBadTLS : PlatformServerConfig :=
  { sampleConfigValid with TLSCertConfig := some ⟨"cert.pem", "", false⟩ }

/-! ## SPA mount URI derivation (plank/utils/cli.go, SpaPath flag)

The SpaPath flag documents: "The URI is derived from the leaf directory.  A
different URI can be specified by providing it following a colon (e.g.
--spa-path ./path/to/spa-app:my-spa".  Characters are modelled as List Char
so the derivation is provable by induction; a String wrapper evaluates it on
concrete flag values. -/

/-- Splits a character list at every occurrence of sep, accumulating the
current segment in reverse. -/
def splitOnCharAux (sep : Char) : List Char → List Char → List (List Char)
  | [], acc => [acc.reverse]
  | c :: cs, acc =>
      if c = sep then acc.reverse :: splitOnCharAux sep cs []
      else splitOnCharAux sep cs (c :: acc)

/-- Splits a character list at every occurrence of sep; the result is never
empty and concatenating it with sep in between restores the input. -/
def splitOnChar (sep : Char) (s : List Char) : List (List Char) :=
  splitOnCharAux sep s []

/-- The leaf path segment: the part after the last slash. -/
def leafSegment (p : List Char) : List Char :=
  (splitOnChar '/' p).getLastD []

/-- Modelled from the spec: derivation of the SPA mount URI from the
spa-path value (the SpaConfig constructor is absent from the provided
source; plank/utils/cli.go documents the rule).  The value is split at the
colon separator: with no colon the URI is the leaf path segment, otherwise
the URI is the override supplied after the separator. -/
def spaUriFromPath (spaPath : List Char) : List Char :=
  match splitOnChar ':' spaPath with
  | [p] => leafSegment p
  | _ :: ov :: _ => ov
  | [] => []

/-- String-level wrapper of spaUriFromPath for concrete flag values. -/
def spaUriOfString (s : String) : String :=
  ⟨spaUriFromPath s.data⟩

/-! ## Metrics endpoint (plank/pkg/server/prometheus.go) -/

/-- Middleware values relevant to this core; prometheus.go wraps the metrics
handler in middleware.BasicSecurityHeaderMiddleware. -/
inductive Middleware where
  | basicSecurityHeaderMiddleware
deriving DecidableEq, Repr

/-- promhttp.HandlerOpts as used in prometheus.go: only EnableOpenMetrics is
set. -/
structure PromHttpHandlerOpts where
  EnableOpenMetrics : Bool
deriving DecidableEq, Repr

/-- Descriptor of a handler registered on the mux router: the prometheus
exposition handler promhttp.HandlerFor(gatherer, opts), or a handler wrapped
by a middleware's Intercept. -/
inductive RouterHandler where
  | promHandlerFor (gatherer : String) (opts : PromHttpHandlerOpts)
  | intercept (mw : Middleware) (h : RouterHandler)
deriving DecidableEq, Repr

/-- The mux router's path registrations: Path(p).Handler(h) appends the pair
(p, h). -/
structure MuxRouter where
  paths : List (String × RouterHandler)
deriving DecidableEq, Repr

/-- enablePrometheus (prometheus.go lines 16-23): registers the
"/prometheus" path on the router, its handler being
promhttp.HandlerFor(prometheus.DefaultGatherer, opts) with EnableOpenMetrics
set, wrapped by BasicSecurityHeaderMiddleware.Intercept. -/
def enablePrometheus (r : MuxRouter) : MuxRouter :=
  { paths := r.paths ++
      [("/prometheus",
        .intercept .basicSecurityHeaderMiddleware
          (.promHandlerFor "prometheus.DefaultGatherer"
            { EnableOpenMetrics := true }))] }

/-- Modelled from the spec: during router build (spec 4.4 step 2) the
metrics endpoint is added exactly when the EnablePrometheus toggle is set
(core_models.go line 31); the call site of enablePrometheus is absent from
the provided source. -/
def setupMetricsRoute (enable : Bool) (r : MuxRouter) : MuxRouter :=
  if enable then enablePrometheus r else r

/-! ## Availability tracker (core_models.go lines 86-89) -/

/-- serverAvailability (core_models.go lines 86-89): boolean availability of
the http server and of the stomp broker (fabric). -/
structure serverAvailability where
  http : Bool
  fabric : Bool
deriving DecidableEq, Repr

/-- The Go zero value of the serverAvailability struct: every bool field is
false. -/
def serverAvailability.zeroValue : serverAvailability :=
  { http := false, fabric := false }

/-- Modelled from the spec: a freshly constructed platformServer (the
constructor body is absent from the provided source) holds a zero-valued
availability tracker, the Availability Tracker being mutated only by the
Lifecycle Coordinator on confirmed transitions. -/
def newServerAvailability : serverAvailability :=
  serverAvailability.zeroValue

/-- Availability Tracker snapshot (spec 4.3): the pair of the http and
fabric flags. -/
def serverAvailability.snapshot (a : serverAvailability) : Bool × Bool :=
  (a.http, a.fabric)

/-! ## Theorems -/

/-- C10: a freshly created server's availability tracker reports both
subsystems down: before any confirmed up-transition, a snapshot yields
http = false and fabric = false, and the tracker equals the zero value of
the serverAvailability struct. -/
theorem newServerAvailability_bothDown :
    newServerAvailability.snapshot = (false, false) ∧
    newServerAvailability = serverAvailability.zeroValue ∧
    serverAvailability.zeroValue.http = false ∧
    serverAvailability.zeroValue.fabric = false :=
  ⟨rfl, rfl, rfl, rfl⟩

/-- C9: on a router not yet carrying a metrics route, enabling metrics
registers exactly one metrics path, "/prometheus", whose handler is the
prometheus exposition handler for the default gatherer with open metrics
enabled, wrapped by the basic security-header middleware; with metrics
disabled no such route is registered. -/
theorem setupMetricsRoute_registersPrometheusOnce (r : MuxRouter)
    (hfresh : ∀ p ∈ r.paths, p.1 ≠ "/prometheus") :
    ((setupMetricsRoute true r).paths.filter (fun p => p.1 = "/prometheus")) =
      [("/prometheus",
        .intercept .basicSecurityHeaderMiddleware
          (.promHandlerFor "prometheus.DefaultGatherer" ⟨true⟩))] ∧
    ((setupMetricsRoute false r).paths.filter (fun p => p.1 = "/prometheus")) = [] := by
  have hnil : r.paths.filter (fun p => p.1 = "/prometheus") = [] := by
    rw [List.filter_eq_nil_iff]
    intro p hp
    simpa using hfresh p hp
  constructor
  · have hps : (setupMetricsRoute true r).paths =
        r.paths ++ [("/prometheus",
          .intercept .basicSecurityHeaderMiddleware
            (.promHandlerFor "prometheus.DefaultGatherer" ⟨true⟩))] := rfl
    rw [hps, List.filter_append, hnil, List.nil_append]
    rfl
  · simpa [setupMetricsRoute] using hnil

/-- Witness for C9 at the empty router. -/
theorem setupMetricsRoute_registersPrometheusOnce_app :
    ((setupMetricsRoute true ⟨[]⟩).paths.filter (fun p => p.1 = "/prometheus")) =
      [("/prometheus",
        .intercept .basicSecurityHeaderMiddleware
          (.promHandlerFor "prometheus.DefaultGatherer" ⟨true⟩))] ∧
    ((setupMetricsRoute false ⟨[]⟩).paths.filter (fun p => p.1 = "/prometheus")) = [] :=
  setupMetricsRoute_registersPrometheusOnce ⟨[]⟩ (by intro p hp; cases hp)

/-- C2: the shutdown sequence first sets both availability flags false, then
drains the HTTP listener within the ShutdownTimeout budget; when the drain
exceeds the budget it force-closes the remaining connections and reports the
non-fatal ShutdownTimeoutExceeded condition; the broker acceptor is closed
exactly once, as the last action, never before the drain. -/
theorem stopServerTrace_ordering (d T : Nat) :
    (stopServerTrace d T).take 2 =
      [.setHttpAvailability false, .setFabricAvailability false] ∧
    (stopServerTrace d T)[2]? = some .drainHttpListener ∧
    (stopServerTrace d T).getLast? = some .closeBrokerAcceptor ∧
    (stopServerTrace d T).count .closeBrokerAcceptor = 1 ∧
    (ShutdownAction.reportShutdownTimeoutExceeded ∈ stopServerTrace d T ↔ T < d) ∧
    (ShutdownAction.forceCloseConnections ∈ stopServerTrace d T ↔ T < d) ∧
    ShutdownAction.exitProcessWithError ∉ stopServerTrace d T ∧
    httpDrainDuration d T ≤ T := by
  by_cases h : d ≤ T
  · refine ⟨?_, ?_, ?_, ?_, ?_, ?_, ?_, ?_⟩ <;>
      simp [stopServerTrace, h, httpDrainDuration, List.count_cons, Nat.not_lt.mpr h]
  · refine ⟨?_, ?_, ?_, ?_, ?_, ?_, ?_, ?_⟩ <;>
      simp [stopServerTrace, h, httpDrainDuration, List.count_cons, Nat.lt_of_not_le h,
        Nat.le_of_not_le h]

/-- C5: a bridged request whose backing bus channel does not answer within
the configured request timeout is answered with a gateway-timeout response
no later than the timeout itself (hence no later than timeout plus any ε),
the bus subscription opened for it is released, and repeated such requests
leave the live-subscription count unchanged. -/
theorem handleBridgeRequest_timeout (timeout : Nat) (reply : Option Nat)
    (subs n : Nat) (hlate : ∀ t, reply = some t → timeout < t) :
    (handleBridgeRequest timeout reply subs).response = .gatewayTimeout ∧
    (handleBridgeRequest timeout reply subs).responseTime ≤ timeout ∧
    (handleBridgeRequest timeout reply subs).subscriptionsAfter = subs ∧
    runBridgeRequests timeout (List.replicate n reply) subs = subs := by
  have hcore : ∀ s : Nat,
      (handleBridgeRequest timeout reply s).response = .gatewayTimeout ∧
      (handleBridgeRequest timeout reply s).responseTime ≤ timeout ∧
      (handleBridgeRequest timeout reply s).subscriptionsAfter = s := by
    intro s
    match hr : reply with
    | none => exact ⟨rfl, Nat.le_refl _, rfl⟩
    | some t =>
        have ht : timeout < t := hlate t rfl
        have : ¬ t ≤ timeout := Nat.not_le.mpr ht
        refine ⟨?_, ?_, ?_⟩ <;> simp [handleBridgeRequest, this]
  refine ⟨(hcore subs).1, (hcore subs).2.1, (hcore subs).2.2, ?_⟩
  induction n with
  | zero => rfl
  | succ m ih =>
      rw [List.replicate_succ]
      show runBridgeRequests timeout (List.replicate m reply)
        (handleBridgeRequest timeout reply subs).subscriptionsAfter = subs
      rw [(hcore subs).2.2]
      exact ih

/-- Witness for C5: a channel that never answers, timeout 5, three repeated
requests. -/
theorem handleBridgeRequest_timeout_app :
    (handleBridgeRequest 5 none 0).response = .gatewayTimeout ∧
    (handleBridgeRequest 5 none 0).responseTime ≤ 5 ∧
    (handleBridgeRequest 5 none 0).subscriptionsAfter = 0 ∧
    runBridgeRequests 5 (List.replicate 3 none) 0 = 0 :=
  handleBridgeRequest_timeout 5 none 0 3 (by intro t ht; cases ht)

/-- A successful duplicate scan excludes every requested pair from the
already-claimed routes. -/
theorem findDuplicatePair_none (pairs : List EndpointKey) :
    ∀ claimed, findDuplicatePair claimed pairs = none →
      ∀ x ∈ pairs, x ∉ claimed := by
  induction pairs with
  | nil => intro claimed _ x hx; cases hx
  | cons k rest ih =>
      intro claimed hnone x hx
      rw [findDuplicatePair] at hnone
      by_cases hk : k ∈ claimed
      · rw [if_pos hk] at hnone; cases hnone
      · rw [if_neg hk] at hnone
        rcases List.mem_cons.mp hx with rfl | hxr
        · exact hk
        · have := ih (k :: claimed) hnone x hxr
          exact fun hc => this (List.mem_cons_of_mem _ hc)

/-- A successful bridge call appends exactly the requested pairs to the
route table. -/
theorem setHttpChannelBridge_ok_routes (s : BridgeState) (ch : String)
    (pairs : List EndpointKey)
    (hok : (SetHttpChannelBridge s ch pairs).2 = none) :
    (SetHttpChannelBridge s ch pairs).1.routes = s.routes ++ pairs := by
  unfold SetHttpChannelBridge at *
  match hfd : findDuplicatePair s.routes pairs with
  | some k => rw [hfd] at hok; cases hok
  | none => rfl

/-- C4: registering a second service on a bus channel already registered
fails with DuplicateChannel and leaves the first registration intact: the
returned state is exactly the input state, channel bindings and bridged
endpoints included. -/
theorem registerService_duplicateChannel (s s' : BridgeState) (ch : String)
    (hfirst : RegisterService s ch = (s', none)) :
    (RegisterService s' ch).2 = some (.duplicateChannel ch) ∧
    (RegisterService s' ch).1 = s' ∧
    ch ∈ (RegisterService s' ch).1.registeredChannels ∧
    (RegisterService s' ch).1.serviceChanToBridgeEndpoints =
      s'.serviceChanToBridgeEndpoints ∧
    (RegisterService s' ch).1.endpointHandlerMap = s'.endpointHandlerMap := by
  unfold RegisterService at hfirst
  by_cases hmem : ch ∈ s.registeredChannels
  · rw [if_pos hmem] at hfirst
    cases (Prod.mk.injEq _ _ _ _ ▸ hfirst).2
  · rw [if_neg hmem] at hfirst
    have hs' : s' = { s with registeredChannels := s.registeredChannels ++ [ch] } :=
      ((Prod.mk.injEq _ _ _ _ ▸ hfirst).1).symm
    have hch : ch ∈ s'.registeredChannels := by
      rw [hs']
      exact List.mem_append_right _ (List.mem_singleton.mpr rfl)
    unfold RegisterService
    rw [if_pos hch]
    exact ⟨rfl, rfl, hch, rfl, rfl⟩

/-- Witness for C4: registering the channel "myChan" twice on a fresh
server. -/
theorem registerService_duplicateChannel_app :
    (RegisterService
      { BridgeState.empty with registeredChannels := ["myChan"] } "myChan").2 =
        some (.duplicateChannel "myChan") ∧
    (RegisterService
      { BridgeState.empty with registeredChannels := ["myChan"] } "myChan").1 =
        { BridgeState.empty with registeredChannels := ["myChan"] } ∧
    "myChan" ∈ (RegisterService
      { BridgeState.empty with registeredChannels := ["myChan"] } "myChan").1.registeredChannels ∧
    (RegisterService
      { BridgeState.empty with registeredChannels := ["myChan"] } "myChan").1.serviceChanToBridgeEndpoints =
      ({ BridgeState.empty with registeredChannels := ["myChan"] } : BridgeState).serviceChanToBridgeEndpoints ∧
    (RegisterService
      { BridgeState.empty with registeredChannels := ["myChan"] } "myChan").1.endpointHandlerMap =
      ({ BridgeState.empty with registeredChannels := ["myChan"] } : BridgeState).endpointHandlerMap :=
  registerService_duplicateChannel BridgeState.empty
    { BridgeState.empty with registeredChannels := ["myChan"] } "myChan" rfl

/-- C3: a bridge call one of whose requested pairs is already claimed fails
with DuplicateRoute and registers nothing — route table, endpoint-to-handler
map and channel-to-endpoints map are all returned unchanged; moreover
re-bridging any pair of an earlier successful bridge call fails with
DuplicateRoute and changes nothing. -/
theorem setHttpChannelBridge_allOrNothing (s : BridgeState) (ch : String)
    (pairs : List EndpointKey) (hdup : ∃ x ∈ pairs, x ∈ s.routes) :
    ((SetHttpChannelBridge s ch pairs).1 = s ∧
      ∃ m u, (SetHttpChannelBridge s ch pairs).2 = some (.duplicateRoute m u)) ∧
    (∀ (t : BridgeState) (ch₀ ch₁ : String) (qs : List EndpointKey) (k : EndpointKey),
      (SetHttpChannelBridge t ch₀ qs).2 = none → k ∈ qs →
      (SetHttpChannelBridge (SetHttpChannelBridge t ch₀ qs).1 ch₁ [k]).1 =
        (SetHttpChannelBridge t ch₀ qs).1 ∧
      (SetHttpChannelBridge (SetHttpChannelBridge t ch₀ qs).1 ch₁ [k]).2 =
        some (.duplicateRoute k.method k.uri)) := by
  constructor
  · have hne : findDuplicatePair s.routes pairs ≠ none := by
      intro hnone
      obtain ⟨x, hx, hxr⟩ := hdup
      exact findDuplicatePair_none pairs s.routes hnone x hx hxr
    unfold SetHttpChannelBridge
    match hfd : findDuplicatePair s.routes pairs with
    | some d => exact ⟨rfl, d.method, d.uri, rfl⟩
    | none => exact absurd hfd hne
  · intro t ch₀ ch₁ qs k hok hk
    have hkr : k ∈ (SetHttpChannelBridge t ch₀ qs).1.routes := by
      rw [setHttpChannelBridge_ok_routes t ch₀ qs hok]
      exact List.mem_append_right _ hk
    generalize (SetHttpChannelBridge t ch₀ qs).1 = t' at hkr ⊢
    have hfd : findDuplicatePair t'.routes [k] = some k := by
      rw [findDuplicatePair, if_pos hkr]
    unfold SetHttpChannelBridge
    rw [hfd]
    exact ⟨rfl, rfl⟩

/-- Witness for C3: bridging the pair (GET, /api/sample) when it is already
claimed, and re-bridging the pair (POST, /api/other) after a first bridge
call registered it successfully. -/
theorem setHttpChannelBridge_allOrNothing_app :
    ((SetHttpChannelBridge
        { BridgeState.empty with routes := [⟨"GET", "/api/sample"⟩] }
        "chanA" [⟨"GET", "/api/sample"⟩]).1 =
      { BridgeState.empty with routes := [⟨"GET", "/api/sample"⟩] } ∧
      ∃ m u, (SetHttpChannelBridge
        { BridgeState.empty with routes := [⟨"GET", "/api/sample"⟩] }
        "chanA" [⟨"GET", "/api/sample"⟩]).2 = some (.duplicateRoute m u)) ∧
    ((SetHttpChannelBridge (SetHttpChannelBridge BridgeState.empty
        "chanB" [⟨"POST", "/api/other"⟩]).1 "chanC" [⟨"POST", "/api/other"⟩]).1 =
      (SetHttpChannelBridge BridgeState.empty
        "chanB" [⟨"POST", "/api/other"⟩]).1 ∧
      (SetHttpChannelBridge (SetHttpChannelBridge BridgeState.empty
        "chanB" [⟨"POST", "/api/other"⟩]).1 "chanC" [⟨"POST", "/api/other"⟩]).2 =
      some (.duplicateRoute "POST" "/api/other")) :=
  ⟨(setHttpChannelBridge_allOrNothing
      { BridgeState.empty with routes := [⟨"GET", "/api/sample"⟩] }
      "chanA" [⟨"GET", "/api/sample"⟩]
      ⟨⟨"GET", "/api/sample"⟩, by simp, by simp⟩).1,
   (setHttpChannelBridge_allOrNothing
      { BridgeState.empty with routes := [⟨"GET", "/api/sample"⟩] }
      "chanA" [⟨"GET", "/api/sample"⟩]
      ⟨⟨"GET", "/api/sample"⟩, by simp, by simp⟩).2
     BridgeState.empty "chanB" "chanC" [⟨"POST", "/api/other"⟩]
     ⟨"POST", "/api/other"⟩ rfl (by simp)⟩

/-- C6: GetRestBridgeSubRoute returns the registered route of a (URI,
method) pair when a bridge for it exists and fails with RouteNotFound when
absent; after one successful bridge call each registered pair is
independently resolvable. -/
theorem getRestBridgeSubRoute_lookup (s : BridgeState) (uri method ch : String)
    (pairs : List EndpointKey) :
    ((⟨method, uri⟩ : EndpointKey) ∈ s.routes →
      GetRestBridgeSubRoute s uri method = .ok ⟨method, uri⟩) ∧
    ((⟨method, uri⟩ : EndpointKey) ∉ s.routes →
      GetRestBridgeSubRoute s uri method = .error (.routeNotFound uri method)) ∧
    ((SetHttpChannelBridge s ch pairs).2 = none →
      ∀ k ∈ pairs,
        GetRestBridgeSubRoute (SetHttpChannelBridge s ch pairs).1 k.uri k.method =
          .ok k) := by
  refine ⟨fun hmem => ?_, fun hnot => ?_, fun hok k hk => ?_⟩
  · unfold GetRestBridgeSubRoute
    rw [if_pos hmem]
  · unfold GetRestBridgeSubRoute
    rw [if_neg hnot]
  · have hkr : (⟨k.method, k.uri⟩ : EndpointKey) ∈ (SetHttpChannelBridge s ch pairs).1.routes := by
      rw [setHttpChannelBridge_ok_routes s ch pairs hok]
      exact List.mem_append_right _ hk
    unfold GetRestBridgeSubRoute
    rw [if_pos hkr]

/-- Witness for C6: lookup of a registered pair, lookup of an absent pair,
and resolution of both pairs of one successful bridge call. -/
theorem getRestBridgeSubRoute_lookup_app :
    GetRestBridgeSubRoute
      { BridgeState.empty with routes := [⟨"GET", "/x"⟩] } "/x" "GET" =
        .ok ⟨"GET", "/x"⟩ ∧
    GetRestBridgeSubRoute BridgeState.empty "/y" "POST" =
      .error (.routeNotFound "/y" "POST") ∧
    GetRestBridgeSubRoute
      (SetHttpChannelBridge BridgeState.empty "chanD"
        [⟨"GET", "/a"⟩, ⟨"POST", "/b"⟩]).1 "/a" "GET" = .ok ⟨"GET", "/a"⟩ ∧
    GetRestBridgeSubRoute
      (SetHttpChannelBridge BridgeState.empty "chanD"
        [⟨"GET", "/a"⟩, ⟨"POST", "/b"⟩]).1 "/b" "POST" = .ok ⟨"POST", "/b"⟩ :=
  ⟨(getRestBridgeSubRoute_lookup
      { BridgeState.empty with routes := [⟨"GET", "/x"⟩] } "/x" "GET" "chanD" []).1
      (by simp),
   (getRestBridgeSubRoute_lookup BridgeState.empty "/y" "POST" "chanD" []).2.1
      (by simp [BridgeState.empty]),
   (getRestBridgeSubRoute_lookup BridgeState.empty "/a" "GET" "chanD"
      [⟨"GET", "/a"⟩, ⟨"POST", "/b"⟩]).2.2 rfl ⟨"GET", "/a"⟩ (by simp),
   (getRestBridgeSubRoute_lookup BridgeState.empty "/b" "POST" "chanD"
      [⟨"GET", "/a"⟩, ⟨"POST", "/b"⟩]).2.2 rfl ⟨"POST", "/b"⟩ (by simp)⟩

/-- One guard step preserves the guard invariant. -/
theorem guardStep_inv (s : GuardState) (e : GuardEvent) (h : GuardInv s) :
    GuardInv (guardStep s e) := by
  rcases h with ⟨hf, hh⟩ | ⟨hf, t₀, hh⟩
  · cases e with
    | beginAttempt t =>
        have : guardStep s (.beginAttempt t) =
            { flag := 1, holders := t :: s.holders } := by
          simp [guardStep, beginRouteMutation, compareAndSwapInt32, hf]
        rw [this]
        exact Or.inr ⟨rfl, t, by rw [hh]⟩
    | endMutation t =>
        have : guardStep s (.endMutation t) = s := by
          simp [guardStep, hh]
        rw [this]
        exact Or.inl ⟨hf, hh⟩
  · cases e with
    | beginAttempt t =>
        have : guardStep s (.beginAttempt t) = s := by
          simp [guardStep, beginRouteMutation, compareAndSwapInt32, hf]
        rw [this]
        exact Or.inr ⟨hf, t₀, hh⟩
    | endMutation t =>
        by_cases ht : t ∈ s.holders
        · have : guardStep s (.endMutation t) =
              { flag := 0, holders := s.holders.erase t } := by
            simp [guardStep, ht, endRouteMutation]
          rw [this]
          left
          constructor
          · rfl
          · rw [hh] at ht ⊢
            rcases List.mem_singleton.mp ht with rfl
            simp [List.erase_cons]
        · have : guardStep s (.endMutation t) = s := by
            simp [guardStep, ht]
          rw [this]
          exact Or.inr ⟨hf, t₀, hh⟩

/-- Every reachable guard state satisfies the guard invariant. -/
theorem guardRun_inv (events : List GuardEvent) : GuardInv (guardRun events) := by
  have general : ∀ (es : List GuardEvent) (s : GuardState), GuardInv s →
      GuardInv (es.foldl guardStep s) := by
    intro es
    induction es with
    | nil => intro s hs; exact hs
    | cons e rest ih =>
        intro s hs
        exact ih (guardStep s e) (guardStep_inv s e hs)
  exact general events GuardState.init (Or.inl ⟨rfl, rfl⟩)

/-- C1: along any linearization of concurrent guard events after the HTTP
listener is live, at most one route mutation is ever in flight, and while
one is in flight any further begin attempt fails fast with the Busy error
and leaves the guard state unchanged. -/
theorem routeTableGuard_mutualExclusion (events : List GuardEvent) (t : Nat)
    (hbusy : (guardRun events).holders ≠ []) :
    (guardRun events).holders.length ≤ 1 ∧
    beginRouteMutation (guardRun events).flag = .error .busy ∧
    guardStep (guardRun events) (.beginAttempt t) = guardRun events := by
  rcases guardRun_inv events with ⟨_, hh⟩ | ⟨hf, t₀, hh⟩
  · exact absurd hh hbusy
  · refine ⟨by rw [hh]; exact Nat.le_refl 1, ?_, ?_⟩
    · simp [beginRouteMutation, compareAndSwapInt32, hf]
    · simp [guardStep, beginRouteMutation, compareAndSwapInt32, hf]

/-- Witness for C1: after task 0 acquires the guard, task 1's begin attempt
fails with Busy. -/
theorem routeTableGuard_mutualExclusion_app :
    (guardRun [.beginAttempt 0]).holders.length ≤ 1 ∧
    beginRouteMutation (guardRun [.beginAttempt 0]).flag = .error .busy ∧
    guardStep (guardRun [.beginAttempt 0]) (.beginAttempt 1) =
      guardRun [.beginAttempt 0] :=
  routeTableGuard_mutualExclusion [.beginAttempt 0] 1 (by decide)

/-- A configuration passes validation exactly when its port is a valid TCP
port and any TLS configuration carries both a certificate file and a key
file. -/
theorem validateConfig_none_iff (c : PlatformServerConfig) :
    validateConfig c = none ↔
      (isValidTcpPort c.Port = true ∧
        ∀ t, c.TLSCertConfig = some t → ¬(t.CertFile = "" ∨ t.KeyFile = "")) := by
  by_cases hp : isValidTcpPort c.Port = true
  · cases hT : c.TLSCertConfig with
    | none => simp [validateConfig, hT, hp]
    | some t =>
        by_cases hc : t.CertFile = "" ∨ t.KeyFile = ""
        · simp only [validateConfig, hT, hp]
          simp [hc]
          exact fun h => hc.resolve_left h
        · simp only [validateConfig, hT, hp]
          simp [hc]
          exact not_or.mp hc
  · simp [validateConfig, hp]

/-- Validation either passes or rejects with the fatal ConfigError. -/
theorem validateConfig_none_or_configError (c : PlatformServerConfig) :
    validateConfig c = none ∨ validateConfig c = some .configError := by
  by_cases hp : isValidTcpPort c.Port = true
  · cases hT : c.TLSCertConfig with
    | none => left; simp [validateConfig, hT, hp]
    | some t =>
        by_cases hc : t.CertFile = "" ∨ t.KeyFile = ""
        · right; simp [validateConfig, hT, hp, hc]
        · left; simp [validateConfig, hT, hp, hc]
  · right; simp [validateConfig, hp]

/-- C7: a configuration accepted by startup validation has a valid TCP port
and, when TLS is configured, both a certificate file and a key file; a
configuration violating the invariant is rejected with the fatal ConfigError
and the HTTP listener never starts; a certificate/key load failure aborts
with the fatal TLSError, again before any listener starts. -/
theorem startupValidation_fatalBeforeListen (c : PlatformServerConfig)
    (tlsLoadOk : Bool) :
    (validateConfig c = none →
      isValidTcpPort c.Port = true ∧
      ∀ t, c.TLSCertConfig = some t → t.CertFile ≠ "" ∧ t.KeyFile ≠ "") ∧
    (validateConfig c ≠ none →
      validateConfig c = some .configError ∧
      .fatalExit .configError ∈ startServerTrace c tlsLoadOk ∧
      .startHttpListener ∉ startServerTrace c tlsLoadOk) ∧
    (validateConfig c = none → startupTlsFatal c tlsLoadOk = true →
      .fatalExit .tlsError ∈ startServerTrace c tlsLoadOk ∧
      .startHttpListener ∉ startServerTrace c tlsLoadOk) := by
  refine ⟨?_, ?_, ?_⟩
  · intro hnone
    obtain ⟨hp, htls⟩ := (validateConfig_none_iff c).mp hnone
    refine ⟨hp, ?_⟩
    intro t ht
    have := htls t ht
    push_neg at this
    exact this
  · intro hne
    have hsome : validateConfig c = some .configError := by
      rcases validateConfig_none_or_configError c with h | h
      · exact absurd h hne
      · exact h
    refine ⟨hsome, ?_, ?_⟩ <;> simp [startServerTrace, hsome]
  · intro hnone hfatal
    have hload : tlsLoadOk = false := by
      rcases tlsLoadOk with _ | _
      · rfl
      · rw [startupTlsFatal] at hfatal
        simp at hfatal
    obtain ⟨t, ht⟩ : ∃ t, c.TLSCertConfig = some t := by
      rw [startupTlsFatal, Bool.and_eq_true] at hfatal
      exact Option.isSome_iff_exists.mp hfatal.1
    subst hload
    refine ⟨?_, ?_⟩ <;>
      simp [startServerTrace, hnone, ht, startupTlsFatal]

/-- Witness for C7: the valid sample configuration satisfies the invariant;
the sample configuration missing its TLS key file is rejected before the
listener starts; a TLS load failure on the valid configuration aborts before
the listener starts. -/
theorem startupValidation_fatalBeforeListen_app :
    (isValidTcpPort sampleConfigValid.Port = true ∧
      ∀ t, sampleConfigValid.TLSCertConfig = some t →
        t.CertFile ≠ "" ∧ t.KeyFile ≠ "") ∧
    (validateConfig sampleConfigBadTLS = some .configError ∧
      .fatalExit .configError ∈ startServerTrace sampleConfigBadTLS true ∧
      .startHttpListener ∉ startServerTrace sampleConfigBadTLS true) ∧
    (.fatalExit .tlsError ∈ startServerTrace sampleConfigValid false ∧
      .startHttpListener ∉ startServerTrace sampleConfigValid false) :=
  ⟨(startupValidation_fatalBeforeListen sampleConfigValid true).1 (by decide),
   (startupValidation_fatalBeforeListen sampleConfigBadTLS true).2.1 (by decide),
   (startupValidation_fatalBeforeListen sampleConfigValid false).2.2
     (by decide) (by decide)⟩

/-- The splitting accumulator never produces an empty list of segments. -/
theorem splitOnCharAux_ne_nil (sep : Char) (s acc : List Char) :
    splitOnCharAux sep s acc ≠ [] := by
  induction s generalizing acc with
  | nil => simp [splitOnCharAux]
  | cons c cs ih =>
      rw [splitOnCharAux]
      by_cases hsep : c = sep
      · rw [if_pos hsep]; simp
      · rw [if_neg hsep]; exact ih (c :: acc)

/-- The last segment of a nonempty list does not depend on the default. -/
theorem getLastD_of_ne_nil {α : Type} (l : List α) (a b : α) (h : l ≠ []) :
    l.getLastD a = l.getLastD b := by
  cases l with
  | nil => exact absurd rfl h
  | cons x xs => rw [List.getLastD_cons, List.getLastD_cons]

/-- Splitting a list free of the separator yields one segment. -/
theorem splitOnCharAux_of_not_mem (sep : Char) (s : List Char) (hs : sep ∉ s) :
    ∀ acc, splitOnCharAux sep s acc = [acc.reverse ++ s] := by
  induction s with
  | nil => intro acc; simp [splitOnCharAux]
  | cons c cs ih =>
      intro acc
      have hne : ¬ c = sep := fun h => hs (by rw [h]; exact List.mem_cons_self _ _)
      have hcs : sep ∉ cs := fun h => hs (List.mem_cons_of_mem _ h)
      rw [splitOnCharAux, if_neg hne, ih hcs (c :: acc)]
      simp

/-- Splitting a list whose separator-free head segment is followed by the
separator emits the head segment and continues with the tail. -/
theorem splitOnCharAux_append_sep (sep : Char) (pre ov : List Char)
    (hpre : sep ∉ pre) :
    ∀ acc, splitOnCharAux sep (pre ++ sep :: ov) acc =
      (acc.reverse ++ pre) :: splitOnCharAux sep ov [] := by
  induction pre with
  | nil =>
      intro acc
      rw [List.nil_append, splitOnCharAux, if_pos rfl]
      simp
  | cons c pre' ih =>
      intro acc
      have hne : ¬ c = sep := fun h => hpre (by rw [h]; exact List.mem_cons_self _ _)
      have hpre' : sep ∉ pre' := fun h => hpre (List.mem_cons_of_mem _ h)
      rw [List.cons_append, splitOnCharAux, if_neg hne, ih hpre' (c :: acc)]
      simp

/-- The last segment of a split is the part after the last separator. -/
theorem splitOnCharAux_getLastD (sep : Char) (q : List Char) (hq : sep ∉ q) :
    ∀ (s acc w : List Char),
      (splitOnCharAux sep (s ++ sep :: q) acc).getLastD w = q := by
  intro s
  induction s with
  | nil =>
      intro acc w
      rw [List.nil_append, splitOnCharAux, if_pos rfl,
        splitOnCharAux_of_not_mem sep q hq []]
      simp
  | cons c s' ih =>
      intro acc w
      rw [List.cons_append, splitOnCharAux]
      by_cases hsep : c = sep
      · rw [if_pos hsep, List.getLastD_cons]
        exact ih [] acc.reverse
      · rw [if_neg hsep]
        exact ih (c :: acc) w

/-- C8: the SPA mount URI is the leaf path segment of the spa-path value
when the value has no colon separator, and is the override following the
separator when one is given; in particular "./path/to/spa-app:my-spa"
mounts at "my-spa" while "./path/to/spa-app" mounts at "spa-app". -/
theorem spaUri_derivation (pre ov d q : List Char) :
    ((':' : Char) ∉ pre → spaUriFromPath pre = leafSegment pre) ∧
    ((':' : Char) ∉ pre → (':' : Char) ∉ ov →
      spaUriFromPath (pre ++ ':' :: ov) = ov) ∧
    (('/' : Char) ∉ q → leafSegment (d ++ '/' :: q) = q) ∧
    spaUriOfString "./path/to/spa-app:my-spa" = "my-spa" ∧
    spaUriOfString "./path/to/spa-app" = "spa-app" := by
  refine ⟨?_, ?_, ?_, ?_, ?_⟩
  · intro hpre
    rw [spaUriFromPath, splitOnChar, splitOnCharAux_of_not_mem _ _ hpre []]
    simp
  · intro hpre hov
    rw [spaUriFromPath, splitOnChar, splitOnCharAux_append_sep _ _ _ hpre [],
      splitOnCharAux_of_not_mem _ _ hov []]
    simp
  · intro hq
    rw [leafSegment, splitOnChar]
    exact splitOnCharAux_getLastD '/' q hq d [] []
  · rfl
  · rfl

/-- Witness for C8: the flag documentation's own example, with and without
the override. -/
theorem spaUri_derivation_app :
    spaUriFromPath "./path/to/spa-app".data =
      leafSegment "./path/to/spa-app".data ∧
    spaUriFromPath ("./path/to/spa-app".data ++ ':' :: "my-spa".data) =
      "my-spa".data ∧
    leafSegment ("./path/to".data ++ '/' :: "spa-app".data) = "spa-app".data ∧
    spaUriOfString "./path/to/spa-app:my-spa" = "my-spa" ∧
    spaUriOfString "./path/to/spa-app" = "spa-app" :=
  ⟨(spaUri_derivation "./path/to/spa-app".data "my-spa".data
      "./path/to".data "spa-app".data).1 (by decide),
   (spaUri_derivation "./path/to/spa-app".data "my-spa".data
      "./path/to".data "spa-app".data).2.1 (by decide) (by decide),
   (spaUri_derivation "./path/to/spa-app".data "my-spa".data
      "./path/to".data "spa-app".data).2.2.1 (by decide),
   (spaUri_derivation "./path/to/spa-app".data "my-spa".data
      "./path/to".data "spa-app".data).2.2.2.1,
   (spaUri_derivation "./path/to/spa-app".data "my-spa".data
      "./path/to".data "spa-app".data).2.2.2.2⟩

end Plank
